import Mathlib

/-!
Shallow embedding of the NVTX C++ convenience wrapper (`src/nvtx.hpp`).

The wrapper builds byte-exact `nvtxEventAttributes_t` structs and forwards
them to external NVTX C entry points.  External opaque handles are modelled
as natural numbers (the null handle is `0`), external library calls are
recorded in explicit traces, and the results returned by the external
library are supplied by oracle functions, so that nothing about the external
library's behaviour is assumed.
-/

namespace nvtx

/-- Opaque `nvtxDomainHandle_t`; the value-initialized handle is the null
pointer, modelled as `0`. -/
abbrev DomainHandle := Nat

/-- The null / default `nvtxDomainHandle_t` (from `nvtxDomainHandle_t const
_domain{}`). -/
def nullDomainHandle : DomainHandle := 0

/-- Opaque `nvtxStringHandle_t` returned by message registration. -/
abbrev StringHandle := Nat

/-- Opaque `char const*` / `wchar_t const*` pointer value stored (not
dereferenced) by `Message`. -/
abbrev CharPtr := Nat

/-- The `nvtxColorType_t` enumeration (external header). -/
inductive nvtxColorType
  | NVTX_COLOR_UNKNOWN
  | NVTX_COLOR_ARGB
deriving DecidableEq, Repr

/-- The `nvtxPayloadType_t` enumeration (external header). -/
inductive nvtxPayloadType
  | NVTX_PAYLOAD_UNKNOWN
  | NVTX_PAYLOAD_TYPE_INT64
  | NVTX_PAYLOAD_TYPE_INT32
  | NVTX_PAYLOAD_TYPE_UNSIGNED_INT64
  | NVTX_PAYLOAD_TYPE_UNSIGNED_INT32
  | NVTX_PAYLOAD_TYPE_FLOAT
  | NVTX_PAYLOAD_TYPE_DOUBLE
deriving DecidableEq, Repr

/-- The `nvtxMessageType_t` enumeration (external header). -/
inductive nvtxMessageType
  | NVTX_MESSAGE_UNKNOWN
  | NVTX_MESSAGE_TYPE_ASCII
  | NVTX_MESSAGE_TYPE_UNICODE
  | NVTX_MESSAGE_TYPE_REGISTERED
deriving DecidableEq, Repr

/-- The `payload_t` union of `nvtxEventAttributes_t`: records which member
was last written and its value.  `zeroed` is the value-initialized union
(`{}`).  Floating-point members are stored as uninterpreted bit patterns;
the wrapper only stores them, never computes with them. -/
inductive payload_t
  | zeroed
  | llValue (v : Int)
  | iValue (v : Int)
  | ullValue (v : Nat)
  | uiValue (v : Nat)
  | fValue (bits : Nat)
  | dValue (bits : Nat)
deriving DecidableEq, Repr

/-- The `nvtxMessageValue_t` union: records which member was last written
and its value.  `zeroed` is the value-initialized union (`{}`). -/
inductive nvtxMessageValue_t
  | zeroed
  | ascii (p : CharPtr)
  | unicode (p : CharPtr)
  | registered (h : StringHandle)
deriving DecidableEq, Repr

/-- Struct `RGB` (`src/nvtx.hpp:359`): component bytes, each in `[0,255]`. -/
structure RGB where
  red : Nat
  green : Nat
  blue : Nat
deriving DecidableEq, Repr

/-- Struct `ARGB` (`src/nvtx.hpp:383`), derived from `RGB` with an added
alpha channel. -/
structure ARGB extends RGB where
  alpha : Nat
deriving DecidableEq, Repr

/-- Class `Color` (`src/nvtx.hpp:406`): packed 32-bit ARGB value plus NVTX
color type.  Every public constructor leaves the member initializer
`_type{NVTX_COLOR_ARGB}` in place. -/
structure Color where
  _value : Nat
  _type : nvtxColorType
deriving DecidableEq, Repr

namespace Color

/-- Source `Color::from_bytes_msb_to_lsb` (`src/nvtx.hpp:474`): packs four bytes
most-significant first using shifts and bitwise or, exactly as the source. -/
def from_bytes_msb_to_lsb (byte3 byte2 byte1 byte0 : Nat) : Nat :=
  byte3 <<< 24 ||| byte2 <<< 16 ||| byte1 <<< 8 ||| byte0

/-- Source `Color::Color(value_type hex_code)` (`src/nvtx.hpp:426`). -/
def ofHex (hex_code : Nat) : Color :=
  { _value := hex_code, _type := nvtxColorType.NVTX_COLOR_ARGB }

/-- Source `Color::Color(ARGB)` (`src/nvtx.hpp:434`). -/
def ofARGB (argb : ARGB) : Color :=
  ofHex (from_bytes_msb_to_lsb argb.alpha argb.red argb.green argb.blue)

/-- Source `Color::Color(RGB)` (`src/nvtx.hpp:446`): alpha fixed to `0xFF`. -/
def ofRGB (rgb : RGB) : Color :=
  ofHex (from_bytes_msb_to_lsb 0xFF rgb.red rgb.green rgb.blue)

/-- Source `Color::get_value` (`src/nvtx.hpp:453`). -/
def get_value (c : Color) : Nat := c._value

/-- Source `Color::get_type` (`src/nvtx.hpp:459`). -/
def get_type (c : Color) : nvtxColorType := c._type

end Color

/-- Class `Category` (`src/nvtx.hpp:499`): wraps an integer id. -/
structure Category where
  id_ : Nat
deriving DecidableEq, Repr

/-- Source `Category::get_id` (`src/nvtx.hpp:517`). -/
def Category.get_id (c : Category) : Nat := c.id_

/-- Class `Payload` (`src/nvtx.hpp:946`): payload type tag plus union value. -/
structure Payload where
  type_ : nvtxPayloadType
  value_ : payload_t
deriving DecidableEq, Repr

namespace Payload

/-- Source `Payload::Payload(int64_t)` (`src/nvtx.hpp:955`). -/
def ofInt64 (value : Int) : Payload :=
  { type_ := nvtxPayloadType.NVTX_PAYLOAD_TYPE_INT64, value_ := payload_t.llValue value }

/-- Source `Payload::Payload(int32_t)` (`src/nvtx.hpp:965`). -/
def ofInt32 (value : Int) : Payload :=
  { type_ := nvtxPayloadType.NVTX_PAYLOAD_TYPE_INT32, value_ := payload_t.iValue value }

/-- Source `Payload::Payload(uint64_t)` (`src/nvtx.hpp:975`). -/
def ofUInt64 (value : Nat) : Payload :=
  { type_ := nvtxPayloadType.NVTX_PAYLOAD_TYPE_UNSIGNED_INT64, value_ := payload_t.ullValue value }

/-- Source `Payload::Payload(uint32_t)` (`src/nvtx.hpp:985`). -/
def ofUInt32 (value : Nat) : Payload :=
  { type_ := nvtxPayloadType.NVTX_PAYLOAD_TYPE_UNSIGNED_INT32, value_ := payload_t.uiValue value }

/-- Source `Payload::Payload(float)` (`src/nvtx.hpp:995`); the float is stored as
its uninterpreted bit pattern. -/
def ofFloat (bits : Nat) : Payload :=
  { type_ := nvtxPayloadType.NVTX_PAYLOAD_TYPE_FLOAT, value_ := payload_t.fValue bits }

/-- Source `Payload::Payload(double)` (`src/nvtx.hpp:1005`); the double is stored
as its uninterpreted bit pattern. -/
def ofDouble (bits : Nat) : Payload :=
  { type_ := nvtxPayloadType.NVTX_PAYLOAD_TYPE_DOUBLE, value_ := payload_t.dValue bits }

/-- Source `Payload::get_value` (`src/nvtx.hpp:1014`). -/
def get_value (p : Payload) : payload_t := p.value_

/-- Source `Payload::get_type` (`src/nvtx.hpp:1022`). -/
def get_type (p : Payload) : nvtxPayloadType := p.type_

end Payload

/-- Class `Message` (`src/nvtx.hpp:837`): message type tag plus union value. -/
structure Message where
  type_ : nvtxMessageType
  value_ : nvtxMessageValue_t
deriving DecidableEq, Repr

namespace Message

/-- Source `Message::Message(char const*)` (`src/nvtx.hpp:846`). -/
def ofAscii (msg : CharPtr) : Message :=
  { type_ := nvtxMessageType.NVTX_MESSAGE_TYPE_ASCII, value_ := nvtxMessageValue_t.ascii msg }

/-- Source `Message::Message(wchar_t const*)` (`src/nvtx.hpp:873`). -/
def ofUnicode (msg : CharPtr) : Message :=
  { type_ := nvtxMessageType.NVTX_MESSAGE_TYPE_UNICODE, value_ := nvtxMessageValue_t.unicode msg }

/-- Source `Message::Message(RegisteredMessage const&)` (`src/nvtx.hpp:904`). -/
def ofRegistered (h : StringHandle) : Message :=
  { type_ := nvtxMessageType.NVTX_MESSAGE_TYPE_REGISTERED,
    value_ := nvtxMessageValue_t.registered h }

/-- Source `Message::get_value` (`src/nvtx.hpp:913`). -/
def get_value (m : Message) : nvtxMessageValue_t := m.value_

/-- Source `Message::get_type` (`src/nvtx.hpp:921`). -/
def get_type (m : Message) : nvtxMessageType := m.type_

end Message

/-- Value of the `NVTX_VERSION` macro of the external NVTX header
(`nvtxEventAttributes_v2`).  The claims only relate the stored field to
this constant, so only its fixedness matters. -/
def NVTX_VERSION : Nat := 2

/-- Value of `sizeof(nvtxEventAttributes_t)` on the target platform
(external header).  The claims only relate the stored field to this
constant, so only its fixedness matters. -/
def sizeof_nvtxEventAttributes_t : Nat := 48

/-- The `nvtxEventAttributes_t` struct populated by `EventAttributes`
(fields in declaration order of the external header, as initialized at
`src/nvtx.hpp:1099`). -/
structure nvtxEventAttributes_t where
  version : Nat
  size : Nat
  category : Nat
  colorType : nvtxColorType
  color : Nat
  payloadType : nvtxPayloadType
  payload : payload_t
  messageType : nvtxMessageType
  message : nvtxMessageValue_t
deriving DecidableEq, Repr

/-- An argument accepted by the variadic `EventAttributes` constructors
(`src/nvtx.hpp:1119`): one of the four attribute component kinds. -/
inductive Arg
  | category (c : Category)
  | color (c : Color)
  | payload (p : Payload)
  | message (m : Message)
deriving DecidableEq, Repr

/-- The kind of an attribute component argument. -/
inductive ArgKind
  | category
  | color
  | payload
  | message
deriving DecidableEq, Repr

/-- Kind of an `Arg`. -/
def Arg.kind : Arg → ArgKind
  | .category _ => ArgKind.category
  | .color _ => ArgKind.color
  | .payload _ => ArgKind.payload
  | .message _ => ArgKind.message

namespace EventAttributes

/-- Source `EventAttributes::EventAttributes()` (`src/nvtx.hpp:1099`): the
zero-argument constructor, giving every attribute its sentinel default. -/
def mkDefault : nvtxEventAttributes_t :=
  { version := NVTX_VERSION
    size := sizeof_nvtxEventAttributes_t
    category := 0
    colorType := nvtxColorType.NVTX_COLOR_UNKNOWN
    color := 0
    payloadType := nvtxPayloadType.NVTX_PAYLOAD_UNKNOWN
    payload := payload_t.zeroed
    messageType := nvtxMessageType.NVTX_MESSAGE_UNKNOWN
    message := nvtxMessageValue_t.zeroed }

/-- The constructor-body assignments of the four variadic `EventAttributes`
constructors (`src/nvtx.hpp:1119`, `1133`, `1148`, `1163`): each overwrites
the fields of its own kind in the struct produced by the delegated-to
constructor. -/
def setArg : Arg → nvtxEventAttributes_t → nvtxEventAttributes_t
  | .category c, a => { a with category := c.get_id }
  | .color c, a => { a with color := c.get_value, colorType := c.get_type }
  | .payload p, a => { a with payload := p.get_value, payloadType := p.get_type }
  | .message m, a => { a with message := m.get_value, messageType := m.get_type }

/-- The variadic `EventAttributes` construction (`src/nvtx.hpp:1119-1169`):
each constructor first delegates to the constructor for the remaining
arguments (ultimately the zero-argument default) and then, in its body,
assigns the fields of its first argument's kind.  The head argument's
assignment therefore runs last and overwrites whatever the tail set. -/
def ofArgs : List Arg → nvtxEventAttributes_t
  | [] => mkDefault
  | a :: args => setArg a (ofArgs args)

end EventAttributes

/-! Specification-side projections used to state the first-occurrence-wins
property: each returns the field contribution of the leftmost argument of
one kind, or the default when that kind is absent. -/

/-- Category id of the leftmost `Category` argument, or `0`. -/
def firstCategoryId : List Arg → Nat
  | [] => 0
  | .category c :: _ => c.get_id
  | _ :: args => firstCategoryId args

/-- Color value of the leftmost `Color` argument, or `0`. -/
def firstColorValue : List Arg → Nat
  | [] => 0
  | .color c :: _ => c.get_value
  | _ :: args => firstColorValue args

/-- Color type of the leftmost `Color` argument, or unknown. -/
def firstColorType : List Arg → nvtxColorType
  | [] => nvtxColorType.NVTX_COLOR_UNKNOWN
  | .color c :: _ => c.get_type
  | _ :: args => firstColorType args

/-- Payload value of the leftmost `Payload` argument, or the zeroed union. -/
def firstPayloadValue : List Arg → payload_t
  | [] => payload_t.zeroed
  | .payload p :: _ => p.get_value
  | _ :: args => firstPayloadValue args

/-- Payload type of the leftmost `Payload` argument, or unknown. -/
def firstPayloadType : List Arg → nvtxPayloadType
  | [] => nvtxPayloadType.NVTX_PAYLOAD_UNKNOWN
  | .payload p :: _ => p.get_type
  | _ :: args => firstPayloadType args

/-- Message value of the leftmost `Message` argument, or the zeroed union. -/
def firstMessageValue : List Arg → nvtxMessageValue_t
  | [] => nvtxMessageValue_t.zeroed
  | .message m :: _ => m.get_value
  | _ :: args => firstMessageValue args

/-- Message type of the leftmost `Message` argument, or unknown. -/
def firstMessageType : List Arg → nvtxMessageType
  | [] => nvtxMessageType.NVTX_MESSAGE_UNKNOWN
  | .message m :: _ => m.get_type
  | _ :: args => firstMessageType args

/-! External call boundary.  Every call the wrapper makes into the NVTX C
library is recorded as an `NvtxCall`; the values the library returns are
supplied by oracle functions, so theorems quantify over every possible
library behaviour (including failing creations that return the null
handle). -/

/-- One call into the external NVTX C library. -/
inductive NvtxCall
  | domainCreateA (name : String)
  | domainDestroy (d : DomainHandle)
  | domainRegisterStringA (d : DomainHandle) (msg : String)
  | domainNameCategoryA (d : DomainHandle) (id : Nat) (name : String)
  | domainRangePushEx (d : DomainHandle) (attr : nvtxEventAttributes_t)
  | domainRangePop (d : DomainHandle)
deriving DecidableEq, Repr

/-- The state of class `Domain` (`src/nvtx.hpp:194`): the single stored
member `_domain`. -/
structure Domain where
  _domain : DomainHandle
deriving DecidableEq, Repr

namespace Domain

/-- Source `Domain::Domain(const char*)` (`src/nvtx.hpp:283`): stores whatever
handle the external `nvtxDomainCreateA` oracle returns, without inspecting
it, and makes exactly that one external call. -/
def mkNamed (create : String → DomainHandle) (name : String) :
    Domain × List NvtxCall :=
  ({ _domain := create name }, [NvtxCall.domainCreateA name])

/-- Source `Domain::Domain()` (`src/nvtx.hpp:325`): default constructor; the
member initializer leaves the null handle and no external call is made. -/
def mkDefault : Domain × List NvtxCall :=
  ({ _domain := nullDomainHandle }, [])

/-- Source `Domain::~Domain()` (`src/nvtx.hpp:331`): unconditionally calls
`nvtxDomainDestroy` on the stored handle. -/
def destruct (d : Domain) : List NvtxCall :=
  [NvtxCall.domainDestroy d._domain]

/-- Identity of a C++ type used as the `DomainName` template parameter of
`Domain::get`: the type's identity (`tag`) and its `DomainName::name`
member.  Distinct types are distinct keys even if they carry equal name
strings, because each instantiation of `Domain::get` owns its own
function-local static. -/
structure NameType where
  tag : Nat
  name : String
deriving DecidableEq, Repr

/-- The function-local statics of all instantiations of `Domain::get`:
for each already-initialized instantiation, its key and its constructed
`Domain`. -/
abbrev Registry := List (Nat × Domain)

/-- Source `Domain::get<DomainName>` (`src/nvtx.hpp:244`): the function-local
`static Domain const d{DomainName::name}` is constructed on the first
call of each instantiation and the same object is returned by every later
call.  Returns the resulting `Domain`, the updated statics, and the
external calls made. -/
def get (create : String → DomainHandle) (D : NameType) (st : Registry) :
    Domain × Registry × List NvtxCall :=
  match st.lookup D.tag with
  | some d => (d, st, [])
  | none =>
      let r := mkNamed create D.name
      (r.1, (D.tag, r.1) :: st, r.2)

/-- The explicit specialization `Domain::get<Domain::global>`
(`src/nvtx.hpp:348`): returns the function-local `static Domain const d{}`
built by the default constructor. -/
def getGlobal : Domain × List NvtxCall := mkDefault

end Domain

/-- Source `NamedCategory::NamedCategory(id_type, const char*)`
(`src/nvtx.hpp:628`): delegates to `Category{id}` and calls
`nvtxDomainNameCategoryA` on the domain handle, ignoring any result. -/
def NamedCategory.mk (d : DomainHandle) (id : Nat) (name : String) :
    Category × List NvtxCall :=
  ({ id_ := id }, [NvtxCall.domainNameCategoryA d id name])

/-- The state of class `RegisteredMessage` (`src/nvtx.hpp:692`): the single
stored member `handle_`. -/
structure RegisteredMessage where
  handle_ : StringHandle
deriving DecidableEq, Repr

/-- Source `RegisteredMessage::RegisteredMessage(char const*)`
(`src/nvtx.hpp:742`): stores whatever handle the external
`nvtxDomainRegisterStringA` oracle returns, without inspecting it, and
makes exactly that one external call. -/
def RegisteredMessage.ofAscii (register : DomainHandle → String → StringHandle)
    (d : DomainHandle) (msg : String) : RegisteredMessage × List NvtxCall :=
  ({ handle_ := register d msg }, [NvtxCall.domainRegisterStringA d msg])

namespace domain_thread_range

/-- Source `domain_thread_range::domain_thread_range(EventAttributes const&)`
(`src/nvtx.hpp:1253`): the constructor issues a single
`nvtxDomainRangePushEx` call with the domain handle and the attribute
struct; no other state is retained. -/
def construct (d : DomainHandle) (attr : nvtxEventAttributes_t) :
    List NvtxCall :=
  [NvtxCall.domainRangePushEx d attr]

/-- The variadic convenience constructor
`domain_thread_range(First const&, Args const&...)` (`src/nvtx.hpp:1281`):
builds `EventAttributes{first, args...}` and delegates to the
`EventAttributes const&` constructor. -/
def constructFromArgs (d : DomainHandle) (first : Arg) (args : List Arg) :
    List NvtxCall :=
  construct d (EventAttributes.ofArgs (first :: args))

/-- Source `domain_thread_range::~domain_thread_range()` (`src/nvtx.hpp:1293`):
the destructor issues a single `nvtxDomainRangePop` call. -/
def destruct (d : DomainHandle) : List NvtxCall :=
  [NvtxCall.domainRangePop d]

end domain_thread_range

/-- One `domain_thread_range` instance in a nested-scope program: its
resolved domain handle and its attribute struct. -/
structure RangeSpec where
  dom : DomainHandle
  attr : nvtxEventAttributes_t
deriving DecidableEq, Repr

/-- Trace of external calls made by a block of nested scopes, each scope
holding one `domain_thread_range`: C++ scoping constructs each range on
scope entry and destroys the ranges in reverse construction order on scope
exit, so the outermost range's push comes first and its pop comes last. -/
def nestTrace : List RangeSpec → List NvtxCall
  | [] => []
  | r :: rest =>
      domain_thread_range.construct r.dom r.attr ++ nestTrace rest ++
        domain_thread_range.destruct r.dom

/-- Projection selecting push calls together with their arguments. -/
def pushOf : NvtxCall → Option (DomainHandle × nvtxEventAttributes_t)
  | .domainRangePushEx d a => some (d, a)
  | _ => none

/-- Projection selecting pop calls together with their domain handle. -/
def popOf : NvtxCall → Option DomainHandle
  | .domainRangePop d => some d
  | _ => none

end nvtx

namespace nvtx

/-! Helper lemmas. -/

/-- Bitwise or of a shifted value with a small value is addition. -/
theorem or_two_pow_eq_add {b : Nat} (a i : Nat) (h : b < 2 ^ i) :
    a * 2 ^ i ||| b = a * 2 ^ i + b := by
  rw [Nat.mul_comm a (2 ^ i), ← Nat.mul_add_lt_is_or h a]

/-- The byte-packing helper equals the weighted byte sum when the three
lower bytes are in range. -/
theorem from_bytes_msb_to_lsb_eq (b3 b2 b1 b0 : Nat) (h2 : b2 < 256)
    (h1 : b1 < 256) (h0 : b0 < 256) :
    Color.from_bytes_msb_to_lsb b3 b2 b1 b0 =
      b3 * 2 ^ 24 + b2 * 2 ^ 16 + b1 * 2 ^ 8 + b0 := by
  unfold Color.from_bytes_msb_to_lsb
  simp only [Nat.shiftLeft_eq]
  rw [Nat.or_assoc, Nat.or_assoc]
  rw [or_two_pow_eq_add b1 8 (by omega)]
  rw [or_two_pow_eq_add b2 16 (by omega)]
  rw [or_two_pow_eq_add b3 24 (by omega)]
  omega

/-- C4: for every `Color` constructed from RGB component bytes `(r,g,b)`,
the packed 32-bit value returned by `get_value` equals
`0xFF * 2^24 + r * 2^16 + g * 2^8 + b`, i.e. the alpha channel defaults to
255 (fully opaque) when omitted. -/
theorem color_of_rgb_packs_bytes_with_opaque_alpha (r g b : Nat)
    (hr : r < 256) (hg : g < 256) (hb : b < 256) :
    (Color.ofRGB { red := r, green := g, blue := b }).get_value =
      0xFF * 2 ^ 24 + r * 2 ^ 16 + g * 2 ^ 8 + b := by
  show Color.from_bytes_msb_to_lsb 0xFF r g b = _
  exact from_bytes_msb_to_lsb_eq 0xFF r g b hr hg hb

/-- Witness for C4 at the concrete bytes `(127, 255, 0)`. -/
theorem color_of_rgb_packs_bytes_with_opaque_alpha_witness :
    (Color.ofRGB { red := 127, green := 255, blue := 0 }).get_value =
      4286578432 :=
  (color_of_rgb_packs_bytes_with_opaque_alpha 127 255 0 (by decide)
    (by decide) (by decide)).trans (by norm_num)

/-- C5: for every `Color` constructed from ARGB component bytes
`(a,r,g,b)`, the packed 32-bit value returned by `get_value` equals
`a * 2^24 + r * 2^16 + g * 2^8 + b`. -/
theorem color_of_argb_packs_bytes (a r g b : Nat) (ha : a < 256)
    (hr : r < 256) (hg : g < 256) (hb : b < 256) :
    (Color.ofARGB { alpha := a, red := r, green := g, blue := b }).get_value =
      a * 2 ^ 24 + r * 2 ^ 16 + g * 2 ^ 8 + b := by
  show Color.from_bytes_msb_to_lsb a r g b = _
  exact from_bytes_msb_to_lsb_eq a r g b hr hg hb

/-- Witness for C5 at the concrete bytes `(1, 2, 3, 4)`. -/
theorem color_of_argb_packs_bytes_witness :
    (Color.ofARGB { alpha := 1, red := 2, green := 3, blue := 4 }).get_value =
      16909060 :=
  (color_of_argb_packs_bytes 1 2 3 4 (by decide) (by decide) (by decide)
    (by decide)).trans (by norm_num)

/-- Structural characterization of the variadic construction: every field
group of the resulting struct is determined by the leftmost argument of
its kind (or the zero-argument default when the kind is absent), because
each constructor's body assignment runs after the delegated construction
of the remaining arguments. -/
theorem ofArgs_eq_firsts (args : List Arg) :
    EventAttributes.ofArgs args =
      { version := NVTX_VERSION
        size := sizeof_nvtxEventAttributes_t
        category := firstCategoryId args
        colorType := firstColorType args
        color := firstColorValue args
        payloadType := firstPayloadType args
        payload := firstPayloadValue args
        messageType := firstMessageType args
        message := firstMessageValue args } := by
  induction args with
  | nil => rfl
  | cons a args ih =>
      cases a <;>
        simp [EventAttributes.ofArgs, EventAttributes.setArg, ih,
          firstCategoryId, firstColorType, firstColorValue, firstPayloadType,
          firstPayloadValue, firstMessageType, firstMessageValue]

/-- When the kinds in `args` are pairwise distinct, a `Category` member of
`args` is its leftmost `Category` argument. -/
theorem firstCategoryId_of_mem {args : List Arg} {c : Category}
    (hnd : (args.map Arg.kind).Nodup) (h : Arg.category c ∈ args) :
    firstCategoryId args = c.get_id := by
  induction args with
  | nil => cases h
  | cons a args ih =>
      rw [List.map_cons, List.nodup_cons] at hnd
      rcases List.mem_cons.mp h with heq | htl
      · subst heq; rfl
      · have hk : (Arg.category c).kind ∈ args.map Arg.kind :=
          List.mem_map_of_mem Arg.kind htl
        cases a with
        | category c' => exact absurd hk hnd.1
        | color c' => exact ih hnd.2 htl
        | payload p' => exact ih hnd.2 htl
        | message m' => exact ih hnd.2 htl

/-- When no `Category` argument occurs, the category contribution is the
default `0`. -/
theorem firstCategoryId_of_not_mem {args : List Arg}
    (h : ∀ c, Arg.category c ∉ args) : firstCategoryId args = 0 := by
  induction args with
  | nil => rfl
  | cons a args ih =>
      have htl : ∀ c, Arg.category c ∉ args := fun c hc =>
        h c (List.mem_cons_of_mem a hc)
      cases a with
      | category c' => exact absurd (List.mem_cons_self _ _) (h c')
      | color c' => exact ih htl
      | payload p' => exact ih htl
      | message m' => exact ih htl

/-- When the kinds in `args` are pairwise distinct, a `Color` member of
`args` is its leftmost `Color` argument. -/
theorem firstColor_of_mem {args : List Arg} {c : Color}
    (hnd : (args.map Arg.kind).Nodup) (h : Arg.color c ∈ args) :
    firstColorValue args = c.get_value ∧ firstColorType args = c.get_type := by
  induction args with
  | nil => cases h
  | cons a args ih =>
      rw [List.map_cons, List.nodup_cons] at hnd
      rcases List.mem_cons.mp h with heq | htl
      · subst heq; exact ⟨rfl, rfl⟩
      · have hk : (Arg.color c).kind ∈ args.map Arg.kind :=
          List.mem_map_of_mem Arg.kind htl
        cases a with
        | category c' => exact ih hnd.2 htl
        | color c' => exact absurd hk hnd.1
        | payload p' => exact ih hnd.2 htl
        | message m' => exact ih hnd.2 htl

/-- When no `Color` argument occurs, the color contribution is the default
`(0, unknown)`. -/
theorem firstColor_of_not_mem {args : List Arg}
    (h : ∀ c, Arg.color c ∉ args) :
    firstColorValue args = 0 ∧
      firstColorType args = nvtxColorType.NVTX_COLOR_UNKNOWN := by
  induction args with
  | nil => exact ⟨rfl, rfl⟩
  | cons a args ih =>
      have htl : ∀ c, Arg.color c ∉ args := fun c hc =>
        h c (List.mem_cons_of_mem a hc)
      cases a with
      | category c' => exact ih htl
      | color c' => exact absurd (List.mem_cons_self _ _) (h c')
      | payload p' => exact ih htl
      | message m' => exact ih htl

/-- When the kinds in `args` are pairwise distinct, a `Payload` member of
`args` is its leftmost `Payload` argument. -/
theorem firstPayload_of_mem {args : List Arg} {p : Payload}
    (hnd : (args.map Arg.kind).Nodup) (h : Arg.payload p ∈ args) :
    firstPayloadValue args = p.get_value ∧
      firstPayloadType args = p.get_type := by
  induction args with
  | nil => cases h
  | cons a args ih =>
      rw [List.map_cons, List.nodup_cons] at hnd
      rcases List.mem_cons.mp h with heq | htl
      · subst heq; exact ⟨rfl, rfl⟩
      · have hk : (Arg.payload p).kind ∈ args.map Arg.kind :=
          List.mem_map_of_mem Arg.kind htl
        cases a with
        | category c' => exact ih hnd.2 htl
        | color c' => exact ih hnd.2 htl
        | payload p' => exact absurd hk hnd.1
        | message m' => exact ih hnd.2 htl

/-- When no `Payload` argument occurs, the payload contribution is the
default `(zeroed, unknown)`. -/
theorem firstPayload_of_not_mem {args : List Arg}
    (h : ∀ p, Arg.payload p ∉ args) :
    firstPayloadValue args = payload_t.zeroed ∧
      firstPayloadType args = nvtxPayloadType.NVTX_PAYLOAD_UNKNOWN := by
  induction args with
  | nil => exact ⟨rfl, rfl⟩
  | cons a args ih =>
      have htl : ∀ p, Arg.payload p ∉ args := fun p hp =>
        h p (List.mem_cons_of_mem a hp)
      cases a with
      | category c' => exact ih htl
      | color c' => exact ih htl
      | payload p' => exact absurd (List.mem_cons_self _ _) (h p')
      | message m' => exact ih htl

/-- When the kinds in `args` are pairwise distinct, a `Message` member of
`args` is its leftmost `Message` argument. -/
theorem firstMessage_of_mem {args : List Arg} {m : Message}
    (hnd : (args.map Arg.kind).Nodup) (h : Arg.message m ∈ args) :
    firstMessageValue args = m.get_value ∧
      firstMessageType args = m.get_type := by
  induction args with
  | nil => cases h
  | cons a args ih =>
      rw [List.map_cons, List.nodup_cons] at hnd
      rcases List.mem_cons.mp h with heq | htl
      · subst heq; exact ⟨rfl, rfl⟩
      · have hk : (Arg.message m).kind ∈ args.map Arg.kind :=
          List.mem_map_of_mem Arg.kind htl
        cases a with
        | category c' => exact ih hnd.2 htl
        | color c' => exact ih hnd.2 htl
        | payload p' => exact ih hnd.2 htl
        | message m' => exact absurd hk hnd.1

/-- When no `Message` argument occurs, the message contribution is the
default `(zeroed, unknown)`. -/
theorem firstMessage_of_not_mem {args : List Arg}
    (h : ∀ m, Arg.message m ∉ args) :
    firstMessageValue args = nvtxMessageValue_t.zeroed ∧
      firstMessageType args = nvtxMessageType.NVTX_MESSAGE_UNKNOWN := by
  induction args with
  | nil => exact ⟨rfl, rfl⟩
  | cons a args ih =>
      have htl : ∀ m, Arg.message m ∉ args := fun m hm =>
        h m (List.mem_cons_of_mem a hm)
      cases a with
      | category c' => exact ih htl
      | color c' => exact ih htl
      | payload p' => exact ih htl
      | message m' => exact absurd (List.mem_cons_self _ _) (h m')

/-- C1: for every construction of an `EventAttributes` from any subset of
the four attribute kinds (each kind at most once, i.e. the argument kinds
are pairwise distinct), supplied in any permutation, the resulting struct's
fields equal the values of the supplied components, and every omitted
kind's fields hold the default sentinel values of the zero-argument
constructor (category `0`, `NVTX_COLOR_UNKNOWN`, `NVTX_PAYLOAD_UNKNOWN`,
`NVTX_MESSAGE_UNKNOWN`). -/
theorem eventAttributes_subset_permutation_fields (args : List Arg)
    (hnd : (args.map Arg.kind).Nodup) :
    (∀ c, Arg.category c ∈ args →
      (EventAttributes.ofArgs args).category = c.get_id) ∧
    ((∀ c, Arg.category c ∉ args) →
      (EventAttributes.ofArgs args).category = 0) ∧
    (∀ c, Arg.color c ∈ args →
      (EventAttributes.ofArgs args).color = c.get_value ∧
        (EventAttributes.ofArgs args).colorType = c.get_type) ∧
    ((∀ c, Arg.color c ∉ args) →
      (EventAttributes.ofArgs args).color = 0 ∧
        (EventAttributes.ofArgs args).colorType =
          nvtxColorType.NVTX_COLOR_UNKNOWN) ∧
    (∀ p, Arg.payload p ∈ args →
      (EventAttributes.ofArgs args).payload = p.get_value ∧
        (EventAttributes.ofArgs args).payloadType = p.get_type) ∧
    ((∀ p, Arg.payload p ∉ args) →
      (EventAttributes.ofArgs args).payload = payload_t.zeroed ∧
        (EventAttributes.ofArgs args).payloadType =
          nvtxPayloadType.NVTX_PAYLOAD_UNKNOWN) ∧
    (∀ m, Arg.message m ∈ args →
      (EventAttributes.ofArgs args).message = m.get_value ∧
        (EventAttributes.ofArgs args).messageType = m.get_type) ∧
    ((∀ m, Arg.message m ∉ args) →
      (EventAttributes.ofArgs args).message = nvtxMessageValue_t.zeroed ∧
        (EventAttributes.ofArgs args).messageType =
          nvtxMessageType.NVTX_MESSAGE_UNKNOWN) := by
  simp only [ofArgs_eq_firsts]
  exact ⟨fun c h => firstCategoryId_of_mem hnd h,
    fun h => firstCategoryId_of_not_mem h,
    fun c h => firstColor_of_mem hnd h,
    fun h => firstColor_of_not_mem h,
    fun p h => firstPayload_of_mem hnd h,
    fun h => firstPayload_of_not_mem h,
    fun m h => firstMessage_of_mem hnd h,
    fun h => firstMessage_of_not_mem h⟩

/-- Witness for C1 at the concrete two-argument permutation
`{Payload{1}, Category{3}}`: supplied kinds take the supplied values,
omitted kinds keep the sentinel defaults. -/
theorem eventAttributes_subset_permutation_fields_witness :
    (EventAttributes.ofArgs
        [Arg.payload (Payload.ofInt32 1), Arg.category { id_ := 3 }]).category
        = 3 ∧
    (EventAttributes.ofArgs
        [Arg.payload (Payload.ofInt32 1), Arg.category { id_ := 3 }]).payload
        = payload_t.iValue 1 ∧
    (EventAttributes.ofArgs
        [Arg.payload (Payload.ofInt32 1), Arg.category { id_ := 3 }]).colorType
        = nvtxColorType.NVTX_COLOR_UNKNOWN ∧
    (EventAttributes.ofArgs
        [Arg.payload (Payload.ofInt32 1),
          Arg.category { id_ := 3 }]).messageType
        = nvtxMessageType.NVTX_MESSAGE_UNKNOWN := by
  have h := eventAttributes_subset_permutation_fields
    [Arg.payload (Payload.ofInt32 1), Arg.category { id_ := 3 }] (by decide)
  exact ⟨h.1 _ (by decide),
    (h.2.2.2.2.1 (Payload.ofInt32 1) (by decide)).1,
    (h.2.2.2.1 (fun c hc => by simp at hc)).2,
    (h.2.2.2.2.2.2.2 (fun m hm => by simp at hm)).2⟩

/-- C2: in every variadic `EventAttributes` construction, each field group
of the resulting struct is determined by the first (leftmost) argument of
its kind and all later arguments of that kind are ignored; in particular
`EventAttributes{Payload{1}, Payload{2}}` yields payload value `1`. -/
theorem eventAttributes_first_occurrence_wins (args : List Arg) :
    (EventAttributes.ofArgs args).category = firstCategoryId args ∧
    (EventAttributes.ofArgs args).color = firstColorValue args ∧
    (EventAttributes.ofArgs args).colorType = firstColorType args ∧
    (EventAttributes.ofArgs args).payload = firstPayloadValue args ∧
    (EventAttributes.ofArgs args).payloadType = firstPayloadType args ∧
    (EventAttributes.ofArgs args).message = firstMessageValue args ∧
    (EventAttributes.ofArgs args).messageType = firstMessageType args ∧
    (EventAttributes.ofArgs
        [Arg.payload (Payload.ofInt32 1), Arg.payload (Payload.ofInt32 2)]).payload
        = payload_t.iValue 1 := by
  rw [ofArgs_eq_firsts]
  exact ⟨rfl, rfl, rfl, rfl, rfl, rfl, rfl, rfl⟩

/-- C9: every `EventAttributes` value, for any argument list, has version
field `NVTX_VERSION` and size field `sizeof(nvtxEventAttributes_t)`; no
variadic constructor path alters these two fields. -/
theorem eventAttributes_version_size_invariant (args : List Arg) :
    (EventAttributes.ofArgs args).version = NVTX_VERSION ∧
    (EventAttributes.ofArgs args).size = sizeof_nvtxEventAttributes_t := by
  rw [ofArgs_eq_firsts]
  exact ⟨rfl, rfl⟩

/-- C3: each `domain_thread_range` instance issues exactly one push call at
construction and exactly one pop call at destruction: over any nested
sequence of scoped ranges, the push calls of the trace are exactly one per
instance in construction order and the pop calls are exactly one per
instance in reverse order; in particular for ranges opened in order
`a, b, c` the begin calls occur in order `a, b, c` and the end calls in
order `c, b, a`. -/
theorem scoped_ranges_one_push_one_pop_lifo (rs : List RangeSpec)
    (a b c : RangeSpec) :
    (nestTrace rs).filterMap pushOf = rs.map (fun r => (r.dom, r.attr)) ∧
    (nestTrace rs).filterMap popOf = (rs.map RangeSpec.dom).reverse ∧
    nestTrace [a, b, c] =
      [NvtxCall.domainRangePushEx a.dom a.attr,
        NvtxCall.domainRangePushEx b.dom b.attr,
        NvtxCall.domainRangePushEx c.dom c.attr,
        NvtxCall.domainRangePop c.dom,
        NvtxCall.domainRangePop b.dom,
        NvtxCall.domainRangePop a.dom] := by
  refine ⟨?_, ?_, rfl⟩
  · induction rs with
    | nil => rfl
    | cons r rs ih =>
        simp [nestTrace, domain_thread_range.construct,
          domain_thread_range.destruct, List.filterMap_append, pushOf, popOf,
          ih]
  · induction rs with
    | nil => rfl
    | cons r rs ih =>
        simp [nestTrace, domain_thread_range.construct,
          domain_thread_range.destruct, List.filterMap_append, pushOf, popOf,
          ih]

/-- C6: `Domain::get` constructs the `Domain` on the first call of an
instantiation and every later call returns the same instance: calling
again after any call returns the identical `Domain`, leaves the statics
unchanged, and makes no further external call; on a first call (no static
yet) the instance is built from the external creation result. -/
theorem domain_get_construct_once_then_stable
    (create : String → DomainHandle) (D : Domain.NameType)
    (st : Domain.Registry) :
    Domain.get create D (Domain.get create D st).2.1 =
      ((Domain.get create D st).1, (Domain.get create D st).2.1, []) ∧
    (st.lookup D.tag = none →
      (Domain.get create D st).1 = { _domain := create D.name } ∧
      (Domain.get create D st).2.2 = [NvtxCall.domainCreateA D.name]) := by
  constructor
  · cases hl : st.lookup D.tag with
    | some d => simp [Domain.get, hl]
    | none => simp [Domain.get, hl, Domain.mkNamed, List.lookup]
  · intro hl
    simp [Domain.get, hl, Domain.mkNamed]

/-- Witness for C6 with a concrete oracle, key and empty statics: the
first call constructs from the oracle and the second call is stable. -/
theorem domain_get_construct_once_then_stable_witness :
    Domain.get (fun _ => 7) { tag := 0, name := "d" }
        (Domain.get (fun _ => 7) { tag := 0, name := "d" } []).2.1 =
      ((Domain.get (fun _ => 7) { tag := 0, name := "d" } []).1,
        (Domain.get (fun _ => 7) { tag := 0, name := "d" } []).2.1, []) ∧
    (Domain.get (fun _ => 7) { tag := 0, name := "d" } []).1 =
      { _domain := 7 } := by
  have h := domain_get_construct_once_then_stable (fun _ => 7)
    { tag := 0, name := "d" } []
  exact ⟨h.1, (h.2 rfl).1⟩

/-- C7: the specialization of the domain lookup for the distinguished
global tag returns a `Domain` whose handle is the null handle, and makes
no external call at all (in particular it never calls the external
domain-creation entry point). -/
theorem domain_get_global_null_handle_no_create :
    Domain.getGlobal.1._domain = nullDomainHandle ∧
      Domain.getGlobal.2 = ([] : List NvtxCall) :=
  ⟨rfl, rfl⟩

/-- C8: no wrapper operation surfaces a failure: the constructors and
destructors of `Domain`, `NamedCategory`, `RegisteredMessage` and
`domain_thread_range` are total functions of the external library's
response, store that response verbatim without inspecting it (the calls
they emit do not depend on the response, and a failed creation returning
the null handle is stored like any other), and return no error. -/
theorem wrapper_operations_never_surface_failure
    (create : String → DomainHandle)
    (register : DomainHandle → String → StringHandle)
    (d : DomainHandle) (name msg : String) (id : Nat)
    (attr : nvtxEventAttributes_t) (dom : Domain) :
    (Domain.mkNamed create name).1 = { _domain := create name } ∧
    (Domain.mkNamed create name).2 = [NvtxCall.domainCreateA name] ∧
    (∀ g : String → DomainHandle,
      (Domain.mkNamed create name).2 = (Domain.mkNamed g name).2) ∧
    (Domain.mkNamed (fun _ => nullDomainHandle) name).1._domain =
      nullDomainHandle ∧
    (RegisteredMessage.ofAscii register d msg).1 =
      { handle_ := register d msg } ∧
    (RegisteredMessage.ofAscii register d msg).2 =
      [NvtxCall.domainRegisterStringA d msg] ∧
    (∀ h : DomainHandle → String → StringHandle,
      (RegisteredMessage.ofAscii register d msg).2 =
        (RegisteredMessage.ofAscii h d msg).2) ∧
    (NamedCategory.mk d id name).1 = { id_ := id } ∧
    (NamedCategory.mk d id name).2 =
      [NvtxCall.domainNameCategoryA d id name] ∧
    domain_thread_range.construct d attr =
      [NvtxCall.domainRangePushEx d attr] ∧
    domain_thread_range.destruct d = [NvtxCall.domainRangePop d] ∧
    Domain.destruct dom = [NvtxCall.domainDestroy dom._domain] :=
  ⟨rfl, rfl, fun _ => rfl, rfl, rfl, rfl, fun _ => rfl, rfl, rfl, rfl, rfl,
    rfl⟩

/-- C10: constructing a `domain_thread_range` directly from attribute
components produces exactly the same external push call (same domain
handle, identical attribute struct) as first constructing
`EventAttributes{first, args...}` and passing it to the
`EventAttributes const&` constructor: the variadic constructor delegates
to the attribute constructor. -/
theorem range_from_components_equals_range_from_attributes
    (d : DomainHandle) (first : Arg) (args : List Arg) :
    domain_thread_range.constructFromArgs d first args =
      domain_thread_range.construct d
        (EventAttributes.ofArgs (first :: args)) :=
  rfl

end nvtx
